import Mathlib

/-!
Verification of the session and feedback engine of the Spotle football bot
(`bot.py`).  Pure helpers of the source are embedded as Lean functions;
the sqlite tables are embedded as association lists with the SQL
operations the code issues; the asynchronous handlers become pure state
transformers returning the reply they would send.
-/

set_option maxHeartbeats 1000000

/-- Generic association-list lookup: the first row whose key matches, as a
SQL `SELECT ... WHERE key = ?` (primary-key tables hold at most one). -/
def alookup {K V : Type} [DecidableEq K] : List (K × V) → K → Option V
  | [], _ => none
  | r :: t, k => if r.1 = k then some r.2 else alookup t k

/-- Update every row with the given key, as SQL `UPDATE ... WHERE key = ?`. -/
def updAll {K V : Type} [DecidableEq K] (l : List (K × V)) (k : K) (f : V → V) :
    List (K × V) :=
  l.map (fun r => if r.1 = k then (r.1, f r.2) else r)

/-- Delete every row with the given key, as SQL `DELETE ... WHERE key = ?`. -/
def delAll {K V : Type} [DecidableEq K] (l : List (K × V)) (k : K) : List (K × V) :=
  l.filter (fun r => decide (r.1 ≠ k))

/-- Insert-or-replace on the key, as SQL `INSERT ... ON CONFLICT DO UPDATE`. -/
def upsert {K V : Type} [DecidableEq K] (l : List (K × V)) (k : K) (v : V) :
    List (K × V) :=
  if l.any (fun r => decide (r.1 = k)) then
    l.map (fun r => if r.1 = k then (k, v) else r)
  else l ++ [(k, v)]

/-- Split a character list on whitespace runs, dropping empty words, as
Python's `str.split()`; `acc` carries the current word reversed. -/
def wordsAux : List Char → List Char → List (List Char)
  | [], acc => if acc = [] then [] else [acc.reverse]
  | c :: t, acc =>
    if c.isWhitespace then
      (if acc = [] then wordsAux t [] else acc.reverse :: wordsAux t [])
    else wordsAux t (c :: acc)

/-- Join words with single spaces, as Python's `" ".join(...)`. -/
def joinWords : List (List Char) → List Char
  | [] => []
  | [w] => w
  | w :: ws => w ++ (' ' :: joinWords ws)

/-- `norm` of `bot.py`: lowercase and collapse runs of whitespace
(`" ".join(str(s).strip().lower().split())`), written on the underlying
character list so it evaluates by kernel reduction. -/
def norm (s : String) : String :=
  ⟨joinWords (wordsAux (s.data.map Char.toLower) [])⟩

/-- The `Player` dataclass of `bot.py`. -/
structure Player where
  id : String
  name : String
  aliases : List String
  debut_year : Int
  iconic_club : String
  fifa_rating : Int
  value_eur : Int
  position_group : String
  birth_country : String
  club_emoji : String
deriving DecidableEq

def MAX_ATTEMPTS : Nat := 10

def SUGGEST_LIMIT : Nat := 8

def GREEN : String := "🟩"

def YELLOW : String := "🟨"

def GREY : String := "⬜️"

/-- The `POS_RU` display table of `bot.py`. -/
def POS_RU : List (String × String) :=
  [("GK", "Вратарь"), ("DEF", "Защитник"), ("MID", "Полузащитник"), ("FWD", "Нападающий")]

/-- The `COUNTRY_TO_CONTINENT` table of `bot.py`, in source order. -/
def COUNTRY_TO_CONTINENT : List (String × String) :=
  [("italy", "europe"), ("france", "europe"), ("spain", "europe"), ("portugal", "europe"),
   ("england", "europe"), ("uk", "europe"), ("united kingdom", "europe"),
   ("netherlands", "europe"), ("germany", "europe"), ("croatia", "europe"), ("serbia", "europe"),
   ("belgium", "europe"), ("poland", "europe"), ("sweden", "europe"), ("norway", "europe"),
   ("denmark", "europe"), ("switzerland", "europe"), ("austria", "europe"), ("russia", "europe"),
   ("usa", "north_america"), ("united states", "north_america"), ("mexico", "north_america"),
   ("canada", "north_america"),
   ("brazil", "south_america"), ("argentina", "south_america"), ("uruguay", "south_america"),
   ("colombia", "south_america"), ("chile", "south_america"),
   ("japan", "asia"), ("south korea", "asia"), ("korea", "asia"), ("china", "asia"),
   ("iran", "asia"), ("saudi arabia", "asia"), ("turkey", "asia"),
   ("nigeria", "africa"), ("senegal", "africa"), ("egypt", "africa"), ("morocco", "africa"),
   ("cameroon", "africa"),
   ("australia", "oceania"), ("new zealand", "oceania")]

/-- `continent_of` of `bot.py` (`COUNTRY_TO_CONTINENT.get(norm(country), "unknown")`). -/
def continent_of (country : String) : String :=
  (alookup COUNTRY_TO_CONTINENT (norm country)).getD "unknown"

/-- `country_color` of `bot.py` (the two locals `g`, `a` are inlined). -/
def country_color (guess_country answer_country : String) : String :=
  if norm guess_country = norm answer_country then GREEN
  else if continent_of guess_country ≠ "unknown" ∧
          continent_of guess_country = continent_of answer_country then YELLOW
  else GREY

/-- `arrow_need` of `bot.py`. -/
def arrow_need (guess_val answer_val : Int) : String :=
  if guess_val = answer_val then "✅"
  else if answer_val > guess_val then "⬆️" else "⬇️"

/-- `color_numeric` of `bot.py`. -/
def color_numeric (guess_val answer_val : Int) (near_delta : Int) : String :=
  if guess_val = answer_val then GREEN
  else if |guess_val - answer_val| ≤ near_delta then YELLOW
  else GREY

/-- `color_bool` of `bot.py`. -/
def color_bool (ok : Bool) : String :=
  if ok then GREEN else GREY

/-- Rounding of `num / den` to the nearest integer, halves to even: the value
Python's `f"{num/den:.0f}"` prints (for quotients small enough that the
float division is exact enough not to cross a rounding boundary). -/
def roundHalfEven (num den : Int) : Int :=
  let q := num / den
  let r := num % den
  if 2 * r < den then q
  else if 2 * r > den then q + 1
  else if q % 2 = 0 then q else q + 1

/-- `fmt_money_eur` of `bot.py`. -/
def fmt_money_eur (v : Int) : String :=
  if v ≥ 1000000 then "€" ++ toString (roundHalfEven v 1000000) ++ "m"
  else if v ≥ 1000 then "€" ++ toString (roundHalfEven v 1000) ++ "k"
  else "€" ++ toString v

/-- `build_feedback_spotle_multiline` of `bot.py`. -/
def build_feedback_spotle_multiline (guess answer : Player) : String :=
  let debut_color := color_numeric guess.debut_year answer.debut_year 2
  let debut_arrow := arrow_need guess.debut_year answer.debut_year
  let club_ok := norm guess.iconic_club == norm answer.iconic_club
  let club_color := color_bool club_ok
  let club_value := (guess.club_emoji ++ " " ++ guess.iconic_club).trim
  let fifa_color := color_numeric guess.fifa_rating answer.fifa_rating 20
  let fifa_arrow := arrow_need guess.fifa_rating answer.fifa_rating
  let value_color := color_numeric guess.value_eur answer.value_eur 5000000
  let value_arrow := arrow_need guess.value_eur answer.value_eur
  let pos_ok := guess.position_group == answer.position_group
  let pos_color := color_bool pos_ok
  let ctry_color := country_color guess.birth_country answer.birth_country
  String.intercalate "\n" [
    debut_color ++ " Debut: " ++ toString guess.debut_year ++ " " ++ debut_arrow,
    club_color ++ " Club: " ++ club_value,
    fifa_color ++ " FIFA: " ++ toString guess.fifa_rating ++ " " ++
      (if fifa_arrow ≠ "✅" then fifa_arrow else "✅"),
    value_color ++ " Value: " ++ fmt_money_eur guess.value_eur ++ " " ++ value_arrow,
    pos_color ++ " Position: " ++ (alookup POS_RU guess.position_group).getD guess.position_group,
    ctry_color ++ " Country: " ++ guess.birth_country]

/-- C3: the feedback comparison is a pure function — the same pair always
produces identical output — and comparing an entity with itself colors every
attribute tile green (EXACT) and shows only the check-mark direction marker. -/
theorem compare_pure_and_self_exact :
    (∀ g t : Player,
      build_feedback_spotle_multiline g t = build_feedback_spotle_multiline g t) ∧
    (∀ p : Player, build_feedback_spotle_multiline p p =
      String.intercalate "\n" [
        GREEN ++ " Debut: " ++ toString p.debut_year ++ " " ++ "✅",
        GREEN ++ " Club: " ++ (p.club_emoji ++ " " ++ p.iconic_club).trim,
        GREEN ++ " FIFA: " ++ toString p.fifa_rating ++ " " ++ "✅",
        GREEN ++ " Value: " ++ fmt_money_eur p.value_eur ++ " " ++ "✅",
        GREEN ++ " Position: " ++ (alookup POS_RU p.position_group).getD p.position_group,
        GREEN ++ " Country: " ++ p.birth_country]) := by
  constructor
  · intro g t; rfl
  · intro p
    simp [build_feedback_spotle_multiline, color_numeric, arrow_need, color_bool,
      country_color]

/-- C4: for the debut-year attribute with tolerance 2, a zero difference is
EXACT (green), an absolute difference of 1 or 2 is NEAR (yellow), and 3 or
more is FAR (grey), on either side of the target. -/
theorem debut_year_tolerance_boundary (g t : Int) :
    (g = t → color_numeric g t 2 = GREEN) ∧
    (1 ≤ |g - t| → |g - t| ≤ 2 → color_numeric g t 2 = YELLOW) ∧
    (3 ≤ |g - t| → color_numeric g t 2 = GREY) := by
  refine ⟨fun h => by simp [color_numeric, h], fun h1 h2 => ?_, fun h3 => ?_⟩
  · have hne : g ≠ t := by
      intro he; rw [he, sub_self, abs_zero] at h1; omega
    simp [color_numeric, hne, h2]
  · have hne : g ≠ t := by
      intro he; rw [he, sub_self, abs_zero] at h3; omega
    have hgt : ¬ |g - t| ≤ 2 := by intro hle; linarith
    simp [color_numeric, hne, hgt]

theorem debut_year_tolerance_boundary_witness :
    color_numeric 1999 2001 2 = YELLOW ∧ color_numeric 1999 2002 2 = GREY :=
  ⟨(debut_year_tolerance_boundary 1999 2001).2.1 (by norm_num) (by norm_num),
   (debut_year_tolerance_boundary 1999 2002).2.2 (by norm_num)⟩

/-- C5: when at least one birth country is absent from the
country-to-continent table and the two countries differ after
normalization, the country tile is grey (FAR); yellow (NEAR) arises only
when both countries resolve to the same known continent. -/
theorem unmapped_country_never_near (gc ac : String) :
    ((continent_of gc = "unknown" ∨ continent_of ac = "unknown") →
       norm gc ≠ norm ac → country_color gc ac = GREY) ∧
    (country_color gc ac = YELLOW →
       continent_of gc ≠ "unknown" ∧ continent_of gc = continent_of ac ∧
       norm gc ≠ norm ac) := by
  constructor
  · intro hu hne
    unfold country_color
    rw [if_neg hne, if_neg]
    rintro ⟨hg, hga⟩
    rcases hu with h | h
    · exact hg h
    · exact hg (hga.trans h)
  · intro hy
    unfold country_color at hy
    by_cases he : norm gc = norm ac
    · rw [if_pos he] at hy; exact absurd hy (by decide)
    · rw [if_neg he] at hy
      by_cases hc : continent_of gc ≠ "unknown" ∧ continent_of gc = continent_of ac
      · exact ⟨hc.1, hc.2, he⟩
      · rw [if_neg hc] at hy; exact absurd hy (by decide)

theorem unmapped_country_never_near_witness :
    country_color "ukraine" "france" = GREY :=
  (unmapped_country_never_near "ukraine" "france").1 (Or.inl (by decide)) (by decide)

/-- Lexicographic comparison of character lists by code point: Python's `<`
on strings, which orders the sort keys' third component in
`find_players_by_substring`. -/
def charsLtb : List Char → List Char → Bool
  | [], [] => false
  | [], _ :: _ => true
  | _ :: _, [] => false
  | a :: s, b :: t => if a < b then true else if b < a then false else charsLtb s t

lemma charsLtb_trichotomy : ∀ s t : List Char,
    charsLtb s t = true ∨ s = t ∨ charsLtb t s = true
  | [], [] => Or.inr (Or.inl rfl)
  | [], _ :: _ => Or.inl rfl
  | _ :: _, [] => Or.inr (Or.inr rfl)
  | a :: s, b :: t => by
    rcases lt_trichotomy a b with h | h | h
    · exact Or.inl (by simp [charsLtb, h])
    · subst h
      rcases charsLtb_trichotomy s t with h2 | h2 | h2
      · exact Or.inl (by simp [charsLtb, lt_irrefl, h2])
      · exact Or.inr (Or.inl (by rw [h2]))
      · exact Or.inr (Or.inr (by simp [charsLtb, lt_irrefl, h2]))
    · exact Or.inr (Or.inr (by simp [charsLtb, h]))

lemma charsLtb_trans : ∀ s t u : List Char,
    charsLtb s t = true → charsLtb t u = true → charsLtb s u = true
  | [], [], _, h1, _ => by simp [charsLtb] at h1
  | [], _ :: _, [], _, h2 => by simp [charsLtb] at h2
  | [], _ :: _, _ :: _, _, _ => rfl
  | _ :: _, [], _, h1, _ => by simp [charsLtb] at h1
  | _ :: _, _ :: _, [], _, h2 => by simp [charsLtb] at h2
  | a :: s, b :: t, c :: u, h1, h2 => by
    simp only [charsLtb] at h1 h2 ⊢
    rcases lt_trichotomy a b with hab | hab | hab
    · rcases lt_trichotomy b c with hbc | hbc | hbc
      · simp [lt_trans hab hbc]
      · subst hbc; simp [hab]
      · simp [lt_asymm hbc, hbc] at h2
    · subst hab
      rcases lt_trichotomy a c with hac | hac | hac
      · simp [hac]
      · subst hac
        simp [lt_irrefl] at h1 h2 ⊢
        exact charsLtb_trans s t u h1 h2
      · simp [lt_asymm hac, hac] at h2
    · simp [lt_asymm hab, hab] at h1

/-- Python's `<=` on the sort tuples `(pos, -rating, pid)` built by
`find_players_by_substring`: lexicographic with string id last. -/
def hitLE (a b : Nat × Int × String) : Prop :=
  a.1 < b.1 ∨ (a.1 = b.1 ∧ (a.2.1 < b.2.1 ∨ (a.2.1 = b.2.1 ∧
    (charsLtb a.2.2.data b.2.2.data = true ∨ a.2.2 = b.2.2))))

instance : DecidableRel hitLE := fun a b => by unfold hitLE; infer_instance

instance : IsTotal (Nat × Int × String) hitLE := by
  constructor
  intro a b
  unfold hitLE
  rcases lt_trichotomy a.1 b.1 with h | h | h
  · exact Or.inl (Or.inl h)
  · rcases lt_trichotomy a.2.1 b.2.1 with h2 | h2 | h2
    · exact Or.inl (Or.inr ⟨h, Or.inl h2⟩)
    · rcases charsLtb_trichotomy a.2.2.data b.2.2.data with h3 | h3 | h3
      · exact Or.inl (Or.inr ⟨h, Or.inr ⟨h2, Or.inl h3⟩⟩)
      · have he : a.2.2 = b.2.2 := by
          have := congrArg String.mk h3
          simpa using this
        exact Or.inl (Or.inr ⟨h, Or.inr ⟨h2, Or.inr he⟩⟩)
      · exact Or.inr (Or.inr ⟨h.symm, Or.inr ⟨h2.symm, Or.inl h3⟩⟩)
    · exact Or.inr (Or.inr ⟨h.symm, Or.inl h2⟩)
  · exact Or.inr (Or.inl h)

instance : IsTrans (Nat × Int × String) hitLE := by
  constructor
  intro a b c hab hbc
  unfold hitLE at *
  rcases hab with h1 | ⟨e1, hab2⟩
  · rcases hbc with h2 | ⟨e2, _⟩
    · exact Or.inl (lt_trans h1 h2)
    · exact Or.inl (by rw [← e2]; exact h1)
  · rcases hbc with h2 | ⟨e2, hbc2⟩
    · exact Or.inl (by rw [e1]; exact h2)
    · refine Or.inr ⟨e1.trans e2, ?_⟩
      rcases hab2 with h1 | ⟨f1, hab3⟩
      · rcases hbc2 with h2 | ⟨f2, _⟩
        · exact Or.inl (lt_trans h1 h2)
        · exact Or.inl (by rw [← f2]; exact h1)
      · rcases hbc2 with h2 | ⟨f2, hbc3⟩
        · exact Or.inl (by rw [f1]; exact h2)
        · refine Or.inr ⟨f1.trans f2, ?_⟩
          rcases hab3 with h1 | h1
          · rcases hbc3 with h2 | h2
            · exact Or.inl (charsLtb_trans _ _ _ h1 h2)
            · exact Or.inl (by rw [← h2]; exact h1)
          · rcases hbc3 with h2 | h2
            · exact Or.inl (by rw [h1]; exact h2)
            · exact Or.inr (h1.trans h2)

/-- Lookup in the `PLAYERS_BY_ID` dict (first catalog entry with the id). -/
def byId (catalog : List Player) (pid : String) : Option Player :=
  catalog.find? (fun p => decide (p.id = pid))

/-- The searchable blob built for each player in `bot.py`
(`norm(p.name) + " " + " ".join(norm(a) for a in p.aliases)`). -/
def blobOf (p : Player) : String :=
  norm p.name ++ " " ++ String.intercalate " " (p.aliases.map norm)

/-- `SEARCH_INDEX` of `bot.py`, parameterized by the loaded catalog. -/
def SEARCH_INDEX (catalog : List Player) : List (String × String) :=
  catalog.map (fun p => (blobOf p, p.id))

/-- Python's `str.find`: index of the first occurrence of `pat` in `s`,
`none` standing for `-1`. -/
def strFind (s pat : List Char) : Option Nat :=
  if pat.isPrefixOf s then some 0
  else match s with
    | [] => none
    | _ :: t => (strFind t pat).map (· + 1)

/-- The `hits` list built by `find_players_by_substring`. -/
def hitsFor (catalog : List Player) (qn : String) : List (Nat × Int × String) :=
  (SEARCH_INDEX catalog).filterMap (fun bp =>
    match strFind bp.1.data qn.data with
    | none => none
    | some pos => (byId catalog bp.2).map (fun p => (pos, -p.fifa_rating, bp.2)))

/-- `find_players_by_substring` of `bot.py`; `hits.sort()` is Python's
stable sort on the tuples, rendered as insertion sort by `hitLE`. -/
def find_players_by_substring (catalog : List Player) (q : String) (limit : Nat) :
    List Player :=
  let qn := norm q
  if qn.length < 3 then []
  else
    (((hitsFor catalog qn).insertionSort hitLE).take limit).filterMap
      (fun h => byId catalog h.2.2)

/-- The sort key a catalog player contributes to `hits`. -/
def rankOf (qn : String) (p : Player) : Nat × Int × String :=
  ((strFind (blobOf p).data qn.data).getD 0, -p.fifa_rating, p.id)

lemma byId_of_mem (catalog : List Player)
    (hnd : (catalog.map Player.id).Nodup) (p : Player) (hp : p ∈ catalog) :
    byId catalog p.id = some p := by
  induction catalog with
  | nil => cases hp
  | cons q t ih =>
    have hnd' : q.id ∉ t.map Player.id ∧ (t.map Player.id).Nodup := by
      rw [List.map_cons] at hnd
      exact List.nodup_cons.mp hnd
    rcases List.mem_cons.mp hp with rfl | hp'
    · unfold byId
      rw [List.find?_cons_of_pos _ (by simp)]
    · have hq : ¬ q.id = p.id := by
        intro he
        apply hnd'.1
        rw [he]
        exact List.mem_map_of_mem _ hp'
      unfold byId
      rw [List.find?_cons_of_neg _ (by simpa using hq)]
      exact ih hnd'.2 hp'

lemma hits_mem (catalog : List Player) (qn : String)
    (hnd : (catalog.map Player.id).Nodup) :
    ∀ h ∈ hitsFor catalog qn, ∃ p, p ∈ catalog ∧ byId catalog h.2.2 = some p ∧
      h = rankOf qn p ∧ strFind (blobOf p).data qn.data = some h.1 := by
  intro h hm
  obtain ⟨bp, hbp, hfb⟩ := List.mem_filterMap.mp hm
  obtain ⟨p, hp, rfl⟩ := List.mem_map.mp hbp
  cases hsf : strFind (blobOf p).data qn.data with
  | none => rw [hsf] at hfb; cases hfb
  | some pos =>
    rw [hsf, byId_of_mem catalog hnd p hp] at hfb
    simp only [Option.map_some'] at hfb
    have hfb' : (pos, -p.fifa_rating, p.id) = h := by simpa using hfb
    subst hfb'
    refine ⟨p, hp, ?_, ?_, ?_⟩
    · exact byId_of_mem catalog hnd p hp
    · simp [rankOf, hsf]
    · simpa using hsf

lemma pairwise_filterMap_of {α β : Type} {R : α → α → Prop} {S : β → β → Prop}
    (f : α → Option β) :
    ∀ l : List α, l.Pairwise R →
      (∀ a ∈ l, ∀ b ∈ l, R a b → ∀ x, f a = some x → ∀ y, f b = some y → S x y) →
      (l.filterMap f).Pairwise S
  | [], _, _ => by simp
  | a :: l, hp, hf => by
    rw [List.filterMap_cons]
    obtain ⟨ha, hl⟩ := List.pairwise_cons.mp hp
    have ih := pairwise_filterMap_of f l hl
      (fun u hu v hv hr => hf u (List.mem_cons_of_mem _ hu) v (List.mem_cons_of_mem _ hv) hr)
    cases hfa : f a with
    | none => exact ih
    | some x =>
      refine List.pairwise_cons.mpr ⟨?_, ih⟩
      intro y hy
      obtain ⟨b, hb, hfb⟩ := List.mem_filterMap.mp hy
      exact hf a (List.mem_cons_self _ _) b (List.mem_cons_of_mem _ hb) (ha b hb) x hfa y hfb

/-- C6 (amended): `find_players_by_substring` returns `[]` for queries whose
normalization is shorter than 3 characters, returns at most `limit` players,
every returned player's blob contains the normalized query, and the results
are ordered by ascending first-match position, then descending rating, with
remaining ties broken by ascending player id (Python tuple comparison). -/
theorem suggest_guard_bound_and_order (catalog : List Player) (q : String) (limit : Nat)
    (hnd : (catalog.map Player.id).Nodup) :
    ((norm q).length < 3 → find_players_by_substring catalog q limit = []) ∧
    (find_players_by_substring catalog q limit).length ≤ limit ∧
    (∀ p ∈ find_players_by_substring catalog q limit,
       p ∈ catalog ∧ strFind (blobOf p).data (norm q).data ≠ none) ∧
    (find_players_by_substring catalog q limit).Pairwise
      (fun p p' => hitLE (rankOf (norm q) p) (rankOf (norm q) p')) := by
  by_cases hq : (norm q).length < 3
  · have hres : find_players_by_substring catalog q limit = [] := by
      simp [find_players_by_substring, hq]
    rw [hres]
    exact ⟨fun _ => rfl, by simp, by simp, by simp⟩
  · have hres : find_players_by_substring catalog q limit =
      (((hitsFor catalog (norm q)).insertionSort hitLE).take limit).filterMap
        (fun h => byId catalog h.2.2) := by
      simp [find_players_by_substring, hq]
    have hmem : ∀ z ∈ (((hitsFor catalog (norm q)).insertionSort hitLE).take limit),
        z ∈ hitsFor catalog (norm q) := by
      intro z hz
      exact (List.perm_insertionSort hitLE _).subset (List.take_subset _ _ hz)
    refine ⟨fun h => absurd h hq, ?_, ?_, ?_⟩
    · rw [hres]
      exact le_trans (List.length_filterMap_le _ _) (List.length_take_le _ _)
    · intro p hp
      rw [hres] at hp
      obtain ⟨h, hh, hby⟩ := List.mem_filterMap.mp hp
      obtain ⟨p', hp', hby', heq, hsf⟩ := hits_mem catalog (norm q) hnd h (hmem h hh)
      rw [hby] at hby'
      cases hby'
      exact ⟨hp', by rw [hsf]; simp⟩
    · rw [hres]
      have hsorted : (((hitsFor catalog (norm q)).insertionSort hitLE)).Pairwise hitLE :=
        List.sorted_insertionSort hitLE _
      have htake : (((hitsFor catalog (norm q)).insertionSort hitLE).take limit).Pairwise hitLE :=
        hsorted.sublist (List.take_sublist _ _)
      refine pairwise_filterMap_of _ _ htake ?_
      intro a hha b hhb hr x hfx y hfy
      obtain ⟨pa, _, hbya, heqa, _⟩ := hits_mem catalog (norm q) hnd a (hmem a hha)
      obtain ⟨pb, _, hbyb, heqb, _⟩ := hits_mem catalog (norm q) hnd b (hmem b hhb)
      rw [hfx] at hbya
      cases hbya
      rw [hfy] at hbyb
      cases hbyb
      rw [← heqa, ← heqb]
      exact hr

/-- Two equally rated demo players whose blobs match a query at the same
position; only their ids and catalog positions differ. -/
def cxA : Player := ⟨"aaa", "zidane", [], 2000, "", 90, 0, "MID", "", ""⟩

def cxB : Player := ⟨"bbb", "zidane", [], 2000, "", 90, 0, "MID", "", ""⟩

/-- C6 counterexample: with catalog order `[cxB, cxA]` and a tie on match
position and rating, the code returns `[cxA, cxB]` (ascending id), not the
catalog iteration order `[cxB, cxA]` the claim predicts. -/
theorem suggest_tiebreak_counterexample :
    find_players_by_substring [cxB, cxA] "zid" 8 = [cxA, cxB] ∧
    find_players_by_substring [cxB, cxA] "zid" 8 ≠ [cxB, cxA] := by
  constructor
  · decide
  · decide

theorem suggest_guard_bound_and_order_witness :
    ((norm "zid").length < 3 → find_players_by_substring [cxB, cxA] "zid" 8 = []) ∧
    (find_players_by_substring [cxB, cxA] "zid" 8).length ≤ 8 ∧
    (∀ p ∈ find_players_by_substring [cxB, cxA] "zid" 8,
       p ∈ [cxB, cxA] ∧ strFind (blobOf p).data (norm "zid").data ≠ none) ∧
    (find_players_by_substring [cxB, cxA] "zid" 8).Pairwise
      (fun p p' => hitLE (rankOf (norm "zid") p) (rankOf (norm "zid") p')) :=
  suggest_guard_bound_and_order [cxB, cxA] "zid" 8 (by decide)

/-- `puzzle_player_of_the_day` of `bot.py`; the date argument is the value
of `today.toordinal()`, the rotation comes from `puzzles.json`'s `order`
field, and `RuntimeError` becomes `Except.error`. -/
def puzzle_player_of_the_day (catalog : List Player) (order : List String)
    (today : Nat) : Except String Player :=
  if order.length = 0 then .error "puzzles.json: поле order пустое"
  else
    let pid := order.getD (today % order.length) ""
    match byId catalog pid with
    | none => .error ("puzzles.json: player id '" ++ pid ++ "' не найден в players.json")
    | some p => .ok p

/-- C7: the daily selector returns the rotation entry at index
`dayNumber mod rotationLength`, deterministically, and fails when the
rotation is empty or the selected id is absent from the catalog. -/
theorem playerOfDay_deterministic (catalog : List Player) (order : List String) (d : Nat) :
    (order = [] → ∃ e, puzzle_player_of_the_day catalog order d = .error e) ∧
    (∀ p, order ≠ [] → byId catalog (order.getD (d % order.length) "") = some p →
       puzzle_player_of_the_day catalog order d = .ok p) ∧
    (order ≠ [] → byId catalog (order.getD (d % order.length) "") = none →
       ∃ e, puzzle_player_of_the_day catalog order d = .error e) ∧
    puzzle_player_of_the_day catalog order d = puzzle_player_of_the_day catalog order d := by
  refine ⟨?_, ?_, ?_, rfl⟩
  · intro h
    subst h
    exact ⟨_, rfl⟩
  · intro p hne hby
    have hl : ¬ order.length = 0 := by simpa [List.length_eq_zero] using hne
    simp only [List.getD_eq_getElem?_getD] at hby
    simp [puzzle_player_of_the_day, hl, hby]
  · intro hne hby
    have hl : ¬ order.length = 0 := by simpa [List.length_eq_zero] using hne
    refine ⟨"puzzles.json: player id '" ++ order.getD (d % order.length) "" ++
      "' не найден в players.json", ?_⟩
    simp only [puzzle_player_of_the_day, hl, if_false, hby]

theorem playerOfDay_deterministic_witness :
    puzzle_player_of_the_day [cxA] ["aaa"] 739000 = .ok cxA :=
  (playerOfDay_deterministic [cxA] ["aaa"] 739000).2.1 cxA (by decide) (by decide)

/-- A row of the `user_sessions` table (`finished` is the 0/1 integer the
schema stores). -/
structure SessionRow where
  answer_id : String
  attempts : Nat
  finished : Nat
  created_at : String
deriving DecidableEq

/-- A row of the `user_attempts` table, minus its `(user_id, session_key)`
key; `n` is the attempt ordinal. -/
structure AttemptRow where
  n : Nat
  guess : String
  feedback : String
deriving DecidableEq

/-- The game database: the four tables of `bot.py`'s schema as rowid-ordered
association lists, keyed by their primary keys (`user_attempts` keeps its
`n` inside the row so the list key is `(user_id, session_key)`). -/
structure DBState where
  sessions : List ((Int × String) × SessionRow)
  attempts : List ((Int × String) × AttemptRow)
  active : List (Int × String)
  suggestions : List (Int × (String × String × List String))
deriving DecidableEq

/-- `get_active_session` of `bot.py`. -/
def get_active_session (db : DBState) (user_id : Int) : Option String :=
  alookup db.active user_id

/-- `set_active_session` of `bot.py` (upsert on `user_id`). -/
def set_active_session (db : DBState) (user_id : Int) (session_key : String) : DBState :=
  { db with active := upsert db.active user_id session_key }

/-- `get_session` of `bot.py`. -/
def get_session (db : DBState) (user_id : Int) (session_key : String) : Option SessionRow :=
  alookup db.sessions (user_id, session_key)

/-- `create_or_reset_session` of `bot.py`: delete the key's attempts, then
insert-or-reset the session row; `now` stands for `datetime.utcnow()`. -/
def create_or_reset_session (db : DBState) (user_id : Int) (session_key : String)
    (answer_id now : String) : DBState :=
  { db with
    attempts := delAll db.attempts (user_id, session_key),
    sessions := upsert db.sessions (user_id, session_key) ⟨answer_id, 0, 0, now⟩ }

/-- `add_attempt` of `bot.py`: read the session, set `attempts := n+1`, and
insert the attempt row at ordinal `n+1`; a missing session raises, and a
primary-key conflict on `(user_id, session_key, n)` raises from sqlite
(both become `Except.error`, rolling the transaction back). -/
def add_attempt (db : DBState) (user_id : Int) (session_key : String)
    (guess feedback : String) : Except String DBState :=
  match get_session db user_id session_key with
  | none => .error "Session not found when adding attempt"
  | some row =>
    let n := row.attempts + 1
    if db.attempts.any (fun r => decide (r.1 = (user_id, session_key) ∧ r.2.n = n)) then
      .error "UNIQUE constraint failed: user_attempts"
    else
      .ok { db with
        sessions := updAll db.sessions (user_id, session_key)
          (fun s => { s with attempts := n }),
        attempts := db.attempts ++ [((user_id, session_key), ⟨n, guess, feedback⟩)] }

/-- `finish_session` of `bot.py`. -/
def finish_session (db : DBState) (user_id : Int) (session_key : String) : DBState :=
  { db with
    sessions := updAll db.sessions (user_id, session_key)
      (fun s => { s with finished := 1 }) }

/-- `get_suggestions` of `bot.py` (the stored choices list stands for the
parsed `choices_json`). -/
def get_suggestions (db : DBState) (user_id : Int) :
    Option (String × String × List String) :=
  alookup db.suggestions user_id

/-- `set_suggestions` of `bot.py`; the token `_token(10)` generates is
passed in, since its generation is random. -/
def set_suggestions (db : DBState) (user_id : Int) (choices : List String)
    (purpose token : String) : DBState :=
  { db with suggestions := upsert db.suggestions user_id (token, purpose, choices) }

/-- `clear_suggestions` of `bot.py`. -/
def clear_suggestions (db : DBState) (user_id : Int) : DBState :=
  { db with suggestions := delAll db.suggestions user_id }

/-- The distinct messages `handle_guess` can send, with the data they carry. -/
inductive Reply where
  | noActive
  | brokenSession
  | alreadyFinished
  | answerMissing
  | exhaustedPre (answerName : String)
  | dbError (e : String)
  | win (attemptNo : Nat) (feedback : String)
  | exhaustedPost (attemptNo : Nat) (feedback : String) (answerName : String)
  | progress (attemptNo : Nat) (feedback : String)
deriving DecidableEq

/-- `handle_guess` of `bot.py` as a state transformer: the returned state is
what the connection commits (an exception from `add_attempt` propagates, so
the transaction rolls back and the state is unchanged). -/
def handle_guess (catalog : List Player) (db : DBState) (user_id : Int)
    (guess_player : Player) : DBState × Reply :=
  match get_active_session db user_id with
  | none => (db, .noActive)
  | some session_key =>
    match get_session db user_id session_key with
    | none => (db, .brokenSession)
    | some row =>
      if row.finished = 1 then (db, .alreadyFinished)
      else
        match byId catalog row.answer_id with
        | none => (db, .answerMissing)
        | some answer =>
          if row.attempts ≥ MAX_ATTEMPTS then
            (finish_session db user_id session_key, .exhaustedPre answer.name)
          else
            let attempt_no := row.attempts + 1
            let fb := build_feedback_spotle_multiline guess_player answer
            match add_attempt db user_id session_key guess_player.name fb with
            | .error e => (db, .dbError e)
            | .ok db2 =>
              if guess_player.id = answer.id then
                (finish_session db2 user_id session_key, .win attempt_no fb)
              else if attempt_no ≥ MAX_ATTEMPTS then
                (finish_session db2 user_id session_key,
                  .exhaustedPost attempt_no fb answer.name)
              else (db2, .progress attempt_no fb)

/-- The distinct outcomes of the suggestion-redemption phase of
`on_suggest_click`. -/
inductive SugReply where
  | stale
  | badIndex
  | playerMissing
  | chosen (p : Player) (purpose : String)
deriving DecidableEq

/-- The redemption phase of `on_suggest_click` in `bot.py`: the stored-token
check, the 1-based index bounds check, and the clearing of the entry.  The
subsequent purpose dispatch (challenge-code creation, or forwarding the
chosen player to `handle_guess`) runs on the cleared, committed state and is
reported here as the `chosen` reply. -/
def on_suggest_click (catalog : List Player) (db : DBState) (user_id : Int)
    (token : String) (idx : Int) : DBState × SugReply :=
  match get_suggestions db user_id with
  | none => (db, .stale)
  | some (saved_token, purpose, choices) =>
    if saved_token ≠ token then (db, .stale)
    else if idx < 1 ∨ idx > (choices.length : Int) then (db, .badIndex)
    else
      let pid := choices.getD (idx - 1).toNat ""
      let db2 := clear_suggestions db user_id
      match byId catalog pid with
      | none => (db2, .playerMissing)
      | some p => (db2, .chosen p purpose)

/-- Run `add_attempt` once per `(guess, feedback)` pair, stopping at the
first failure: the shape of N sequential recorded guesses. -/
def run_attempts (db : DBState) (user_id : Int) (session_key : String) :
    List (String × String) → Except String DBState
  | [] => .ok db
  | (g, fb) :: rest =>
    match add_attempt db user_id session_key g fb with
    | .error e => .error e
    | .ok db2 => run_attempts db2 user_id session_key rest

/-- The ordinals stored in `user_attempts` for one session, in rowid order. -/
def attemptNs (db : DBState) (user_id : Int) (session_key : String) : List Nat :=
  (db.attempts.filter (fun r => decide (r.1 = (user_id, session_key)))).map (·.2.n)

lemma alookup_updAll_self {K V : Type} [DecidableEq K] :
    ∀ (l : List (K × V)) (k : K) (f : V → V),
      alookup (updAll l k f) k = (alookup l k).map f
  | [], _, _ => rfl
  | r :: t, k, f => by
    by_cases h : r.1 = k
    · simp [alookup, updAll, h]
    · simp only [updAll, List.map_cons, if_neg h, alookup]
      exact alookup_updAll_self t k f

lemma alookup_setAll {K V : Type} [DecidableEq K] :
    ∀ (l : List (K × V)) (k : K) (v : V),
      l.any (fun r => decide (r.1 = k)) = true →
      alookup (l.map (fun r => if r.1 = k then (k, v) else r)) k = some v
  | [], _, _, hany => by simp at hany
  | r :: t, k, v, hany => by
    by_cases h : r.1 = k
    · simp [alookup, h]
    · have hany' : t.any (fun x => decide (x.1 = k)) = true := by
        rcases List.any_eq_true.mp hany with ⟨x, hx, hpx⟩
        rcases List.mem_cons.mp hx with rfl | hx'
        · exact absurd (by simpa using hpx) h
        · exact List.any_eq_true.mpr ⟨x, hx', hpx⟩
      simp only [List.map_cons, if_neg h, alookup]
      exact alookup_setAll t k v hany'

lemma alookup_append_last {K V : Type} [DecidableEq K] :
    ∀ (l : List (K × V)) (k : K) (v : V),
      (∀ r ∈ l, r.1 ≠ k) → alookup (l ++ [(k, v)]) k = some v
  | [], k, v, _ => by simp [alookup]
  | r :: t, k, v, h => by
    rw [List.cons_append]
    simp only [alookup, h r (List.mem_cons_self r t), if_false]
    exact alookup_append_last t k v (fun x hx => h x (List.mem_cons_of_mem r hx))

lemma alookup_upsert_self {K V : Type} [DecidableEq K] (l : List (K × V)) (k : K) (v : V) :
    alookup (upsert l k v) k = some v := by
  unfold upsert
  by_cases hany : l.any (fun r => decide (r.1 = k)) = true
  · rw [if_pos hany]
    exact alookup_setAll l k v hany
  · rw [if_neg hany]
    apply alookup_append_last
    intro r hr he
    apply hany
    rw [List.any_eq_true]
    exact ⟨r, hr, by simp [he]⟩

lemma alookup_delAll {K V : Type} [DecidableEq K] :
    ∀ (l : List (K × V)) (k : K), alookup (delAll l k) k = none
  | [], _ => rfl
  | r :: t, k => by
    by_cases h : r.1 = k
    · simp [delAll, List.filter_cons, h] at *
      simpa [delAll] using alookup_delAll t k
    · simp [delAll, List.filter_cons, h, alookup] at *
      simpa [delAll] using alookup_delAll t k

lemma filter_delAll {K V : Type} [DecidableEq K] :
    ∀ (l : List (K × V)) (k : K),
      (delAll l k).filter (fun r => decide (r.1 = k)) = []
  | [], _ => rfl
  | r :: t, k => by
    have ih := filter_delAll t k
    by_cases h : r.1 = k
    · simp only [delAll, List.filter_cons, h] at ih ⊢
      simp [h, ih]
    · simp only [delAll, List.filter_cons, h] at ih ⊢
      simp [h, ih]

/-- C2: once a session row is finished, `handle_guess` replies
"already finished" and returns the database unchanged, so neither the
attempts counter nor the attempt history moves. -/
theorem finished_session_rejects_guess (catalog : List Player) (db : DBState)
    (uid : Int) (key : String) (g : Player) (row : SessionRow)
    (h1 : get_active_session db uid = some key)
    (h2 : get_session db uid key = some row)
    (h3 : row.finished = 1) :
    handle_guess catalog db uid g = (db, Reply.alreadyFinished) := by
  simp [handle_guess, h1, h2, h3]

/-- A database with one finished session in focus. -/
def demoFinished : DBState :=
  ⟨[((1, "k"), ⟨"x", 3, 1, "t"⟩)], [((1, "k"), ⟨1, "g", "fb"⟩)], [(1, "k")], []⟩

theorem finished_session_rejects_guess_witness :
    handle_guess [] demoFinished 1 cxA = (demoFinished, Reply.alreadyFinished) :=
  finished_session_rejects_guess [] demoFinished 1 "k" cxA ⟨"x", 3, 1, "t"⟩
    (by decide) (by decide) rfl

lemma add_attempt_step (db : DBState) (uid : Int) (key : String) (g fb : String) (k : Nat)
    (hrow : (get_session db uid key).map SessionRow.attempts = some k)
    (hns : attemptNs db uid key = List.range' 1 k) :
    ∃ db2, add_attempt db uid key g fb = .ok db2 ∧
      (get_session db2 uid key).map SessionRow.attempts = some (k + 1) ∧
      attemptNs db2 uid key = List.range' 1 (k + 1) := by
  obtain ⟨row, hrow', hatt⟩ := Option.map_eq_some'.mp hrow
  have hany : db.attempts.any
      (fun r => decide (r.1 = (uid, key) ∧ r.2.n = row.attempts + 1)) = false := by
    rw [List.any_eq_false]
    intro r hr
    simp only [decide_eq_true_eq]
    rintro ⟨hk, hn⟩
    have hmem : r.2.n ∈ attemptNs db uid key := by
      unfold attemptNs
      exact List.mem_map_of_mem _ (List.mem_filter.mpr ⟨hr, by simp [hk]⟩)
    rw [hns, hn, hatt] at hmem
    rcases List.mem_range'_1.mp hmem with ⟨_, hlt⟩
    omega
  refine ⟨{ db with
      sessions := updAll db.sessions (uid, key)
        (fun s => { s with attempts := row.attempts + 1 }),
      attempts := db.attempts ++ [((uid, key), ⟨row.attempts + 1, g, fb⟩)] }, ?_, ?_, ?_⟩
  · simp only [add_attempt, hrow', hany]
    rfl
  · simp only [get_session] at hrow' ⊢
    simp only [alookup_updAll_self, hrow', Option.map_some']
    rw [hatt]
  · unfold attemptNs at hns ⊢
    simp only [List.filter_append, List.map_append, hns]
    have hnum : 1 + 1 * k = k + 1 := by omega
    rw [List.range'_concat, hnum]
    simp [hatt]

lemma run_attempts_ok (uid : Int) (key : String) :
    ∀ (gs : List (String × String)) (db : DBState) (k : Nat),
      (get_session db uid key).map SessionRow.attempts = some k →
      attemptNs db uid key = List.range' 1 k →
      ∃ db2, run_attempts db uid key gs = .ok db2 ∧
        (get_session db2 uid key).map SessionRow.attempts = some (k + gs.length) ∧
        attemptNs db2 uid key = List.range' 1 (k + gs.length)
  | [], db, k, h1, h2 => ⟨db, rfl, by simpa using h1, by simpa using h2⟩
  | (g, fb) :: rest, db, k, h1, h2 => by
    obtain ⟨db2, hok, h1', h2'⟩ := add_attempt_step db uid key g fb k h1 h2
    obtain ⟨db3, hok', h1'', h2''⟩ := run_attempts_ok uid key rest db2 (k + 1) h1' h2'
    have hlen : k + 1 + rest.length = k + ((g, fb) :: rest).length := by
      simp
      omega
    refine ⟨db3, ?_, ?_, ?_⟩
    · simp only [run_attempts, hok, hok']
    · rw [← hlen]
      exact h1''
    · rw [← hlen]
      exact h2''

/-- C1: starting from a freshly (re)created session, N sequential
`add_attempt` calls all succeed, store ordinals 1, 2, ..., N exactly, and
leave the session's attempts counter at N. -/
theorem recordGuess_assigns_monotone_ordinals (db : DBState) (uid : Int) (key : String)
    (aid now : String) (gs : List (String × String)) :
    ∃ db2, run_attempts (create_or_reset_session db uid key aid now) uid key gs = .ok db2 ∧
      (get_session db2 uid key).map SessionRow.attempts = some gs.length ∧
      attemptNs db2 uid key = List.range' 1 gs.length := by
  have h1 : (get_session (create_or_reset_session db uid key aid now) uid key).map
      SessionRow.attempts = some 0 := by
    unfold get_session create_or_reset_session
    rw [alookup_upsert_self]
    rfl
  have h2 : attemptNs (create_or_reset_session db uid key aid now) uid key =
      List.range' 1 0 := by
    unfold attemptNs create_or_reset_session
    simp [filter_delAll]
  obtain ⟨db2, hok, hA, hB⟩ := run_attempts_ok uid key gs _ 0 h1 h2
  exact ⟨db2, hok, by simpa using hA, by simpa using hB⟩

lemma no_key_filter {K V : Type} [DecidableEq K] (l : List (K × V)) (k : K)
    (h : ∀ r ∈ l, r.1 ≠ k) : l.filter (fun r => decide (r.1 = k)) = [] := by
  rw [List.filter_eq_nil_iff]
  intro r hr
  simpa using h r hr

lemma no_key_map {K V : Type} [DecidableEq K] (l : List (K × V)) (k : K) (v : V)
    (h : ∀ r ∈ l, r.1 ≠ k) : l.map (fun r => if r.1 = k then (k, v) else r) = l := by
  induction l with
  | nil => rfl
  | cons r t ih =>
    rw [List.map_cons, if_neg (h r (List.mem_cons_self r t)),
      ih (fun x hx => h x (List.mem_cons_of_mem r hx))]

lemma filter_setAll {K V : Type} [DecidableEq K] :
    ∀ (l : List (K × V)) (k : K) (v : V),
      (l.map Prod.fst).Nodup → l.any (fun r => decide (r.1 = k)) = true →
      (l.map (fun r => if r.1 = k then (k, v) else r)).filter
        (fun r => decide (r.1 = k)) = [(k, v)]
  | [], k, v, _, hany => by simp at hany
  | r :: t, k, v, hnd, hany => by
    have hnd' : r.1 ∉ t.map Prod.fst ∧ (t.map Prod.fst).Nodup := by
      rw [List.map_cons] at hnd
      exact List.nodup_cons.mp hnd
    by_cases h : r.1 = k
    · subst h
      have hnok : ∀ x ∈ t, x.1 ≠ r.1 := fun x hx he => hnd'.1 (he ▸ List.mem_map_of_mem _ hx)
      rw [List.map_cons, if_pos rfl, no_key_map t r.1 v hnok]
      simp [no_key_filter t r.1 hnok]
    · have hany' : t.any (fun x => decide (x.1 = k)) = true := by
        rcases List.any_eq_true.mp hany with ⟨x, hx, hpx⟩
        rcases List.mem_cons.mp hx with rfl | hx'
        · exact absurd (by simpa using hpx) h
        · exact List.any_eq_true.mpr ⟨x, hx', hpx⟩
      rw [List.map_cons, if_neg h, List.filter_cons_of_neg (by simpa using h)]
      exact filter_setAll t k v hnd'.2 hany'

lemma filter_upsert_self {K V : Type} [DecidableEq K] (l : List (K × V)) (k : K) (v : V)
    (hnd : (l.map Prod.fst).Nodup) :
    (upsert l k v).filter (fun r => decide (r.1 = k)) = [(k, v)] := by
  unfold upsert
  by_cases hany : l.any (fun r => decide (r.1 = k)) = true
  · rw [if_pos hany]
    exact filter_setAll l k v hnd hany
  · rw [if_neg hany]
    have hno : ∀ r ∈ l, r.1 ≠ k := by
      intro r hr he
      apply hany
      rw [List.any_eq_true]
      exact ⟨r, hr, by simp [he]⟩
    rw [List.filter_append, no_key_filter l k hno]
    simp

lemma map_fst_setAll {K V : Type} [DecidableEq K] (k : K) (v : V) :
    ∀ l : List (K × V),
      (l.map (fun r => if r.1 = k then (k, v) else r)).map Prod.fst = l.map Prod.fst
  | [] => rfl
  | r :: t => by
    by_cases h : r.1 = k
    · simp only [List.map_cons, if_pos h, map_fst_setAll k v t]
      rw [← h]
    · simp only [List.map_cons, if_neg h, map_fst_setAll k v t]

lemma upsert_keysNodup {K V : Type} [DecidableEq K] (l : List (K × V)) (k : K) (v : V)
    (hnd : (l.map Prod.fst).Nodup) : ((upsert l k v).map Prod.fst).Nodup := by
  unfold upsert
  by_cases hany : l.any (fun r => decide (r.1 = k)) = true
  · rw [if_pos hany, map_fst_setAll]
    exact hnd
  · rw [if_neg hany, List.map_append]
    have hk : k ∉ l.map Prod.fst := by
      intro hm
      obtain ⟨r, hr, he⟩ := List.mem_map.mp hm
      apply hany
      rw [List.any_eq_true]
      exact ⟨r, hr, by simp [he]⟩
    simp [List.nodup_append, hnd, hk]

/-- C8: `create_or_reset_session` is idempotent — after one call or two for
the same `(user, key)`, exactly one session row exists for that key, with
zero attempts and not finished (ACTIVE), and the key's attempt history is
empty; earlier attempts and status are replaced. -/
theorem createOrReset_idempotent (db : DBState) (uid : Int) (key : String)
    (aid now aid2 now2 : String) (hnd : (db.sessions.map Prod.fst).Nodup) :
    ((create_or_reset_session db uid key aid now).sessions.filter
        (fun r => decide (r.1 = (uid, key))) = [((uid, key), ⟨aid, 0, 0, now⟩)] ∧
      attemptNs (create_or_reset_session db uid key aid now) uid key = []) ∧
    ((create_or_reset_session (create_or_reset_session db uid key aid now)
        uid key aid2 now2).sessions.filter
        (fun r => decide (r.1 = (uid, key))) = [((uid, key), ⟨aid2, 0, 0, now2⟩)] ∧
      attemptNs (create_or_reset_session (create_or_reset_session db uid key aid now)
        uid key aid2 now2) uid key = []) := by
  have hnd1 : ((create_or_reset_session db uid key aid now).sessions.map Prod.fst).Nodup :=
    upsert_keysNodup _ _ _ hnd
  refine ⟨⟨?_, ?_⟩, ?_, ?_⟩
  · exact filter_upsert_self _ _ _ hnd
  · unfold attemptNs create_or_reset_session
    simp [filter_delAll]
  · exact filter_upsert_self _ _ _ hnd1
  · unfold attemptNs create_or_reset_session
    simp [filter_delAll]

/-- The empty database. -/
def emptyDB : DBState := ⟨[], [], [], []⟩

theorem createOrReset_idempotent_witness :
    (create_or_reset_session emptyDB 1 "k" "a" "t0").sessions.filter
        (fun r => decide (r.1 = ((1 : Int), "k"))) = [(((1 : Int), "k"), ⟨"a", 0, 0, "t0"⟩)] ∧
    attemptNs (create_or_reset_session (create_or_reset_session emptyDB 1 "k" "a" "t0")
        1 "k" "b" "t1") 1 "k" = [] :=
  ⟨(createOrReset_idempotent emptyDB 1 "k" "a" "t0" "b" "t1" (by decide)).1.1,
   (createOrReset_idempotent emptyDB 1 "k" "a" "t0" "b" "t1" (by decide)).2.2⟩

/-- C9: suggestion redemption is single-use with guarded failures — a
missing entry or a token mismatch replies "stale", an index outside
`[1, len(choices)]` replies "bad index", and a successful redemption clears
the player's entry, so replaying the same token hits the stale guard. -/
theorem suggestion_redeem_single_use (catalog : List Player) (db : DBState)
    (uid : Int) (token : String) (idx : Int) :
    (get_suggestions db uid = none →
       on_suggest_click catalog db uid token idx = (db, SugReply.stale)) ∧
    (∀ t p cs, get_suggestions db uid = some (t, p, cs) → t ≠ token →
       on_suggest_click catalog db uid token idx = (db, SugReply.stale)) ∧
    (∀ t p cs, get_suggestions db uid = some (t, p, cs) → t = token →
       (idx < 1 ∨ idx > (cs.length : Int)) →
       on_suggest_click catalog db uid token idx = (db, SugReply.badIndex)) ∧
    (∀ t p cs, get_suggestions db uid = some (t, p, cs) → t = token →
       1 ≤ idx → idx ≤ (cs.length : Int) →
       get_suggestions (on_suggest_click catalog db uid token idx).1 uid = none ∧
       (on_suggest_click catalog (on_suggest_click catalog db uid token idx).1
          uid token idx).2 = SugReply.stale) := by
  refine ⟨?_, ?_, ?_, ?_⟩
  · intro h
    simp [on_suggest_click, h]
  · intro t p cs h ht
    simp [on_suggest_click, h, ht]
  · intro t p cs h ht hidx
    simp [on_suggest_click, h, ht, hidx]
  · intro t p cs h ht h1 h2
    have hcond : ¬ (idx < 1 ∨ idx > (cs.length : Int)) := by omega
    have hstate : (on_suggest_click catalog db uid token idx).1 =
        clear_suggestions db uid := by
      cases hby : byId catalog (cs[idx.toNat - 1]?.getD "") with
      | none => simp [on_suggest_click, h, ht, hcond, hby]
      | some q => simp [on_suggest_click, h, ht, hcond, hby]
    have hclear : get_suggestions (clear_suggestions db uid) uid = none := by
      unfold get_suggestions clear_suggestions
      exact alookup_delAll db.suggestions uid
    refine ⟨?_, ?_⟩
    · rw [hstate]
      exact hclear
    · rw [hstate]
      simp [on_suggest_click, hclear]

/-- A database holding one live suggestion entry for player 1. -/
def demoSug : DBState := ⟨[], [], [], [(1, ("tok", "guess", ["aaa"]))]⟩

theorem suggestion_redeem_single_use_witness :
    get_suggestions (on_suggest_click [cxA] demoSug 1 "tok" 1).1 1 = none ∧
    (on_suggest_click [cxA] (on_suggest_click [cxA] demoSug 1 "tok" 1).1
       1 "tok" 1).2 = SugReply.stale :=
  (suggestion_redeem_single_use [cxA] demoSug 1 "tok" 1).2.2.2 "tok" "guess" ["aaa"]
    (by decide) rfl (by decide) (by decide)

/-- C10: a correct guess recorded with the last allowed attempt (attempt
number `MAX_ATTEMPTS`) finishes the session as a win and reports the win,
not exhaustion: the win check precedes the attempt-ceiling check. -/
theorem final_attempt_win_precedence (catalog : List Player) (db : DBState)
    (uid : Int) (key : String) (g : Player) (row : SessionRow) (answer : Player)
    (h1 : get_active_session db uid = some key)
    (h2 : get_session db uid key = some row)
    (h3 : ¬ row.finished = 1)
    (h4 : byId catalog row.answer_id = some answer)
    (h5 : row.attempts = MAX_ATTEMPTS - 1)
    (h6 : g.id = answer.id)
    (h7 : ∀ r ∈ db.attempts, ¬ (r.1 = (uid, key) ∧ r.2.n = row.attempts + 1)) :
    ∃ db2, handle_guess catalog db uid g =
        (db2, Reply.win MAX_ATTEMPTS (build_feedback_spotle_multiline g answer)) ∧
      (get_session db2 uid key).map SessionRow.finished = some 1 := by
  have hmax : ¬ row.attempts ≥ MAX_ATTEMPTS := by
    rw [h5]
    decide
  have hten : row.attempts + 1 = MAX_ATTEMPTS := by
    rw [h5]
    decide
  have hany : db.attempts.any
      (fun r => decide (r.1 = (uid, key) ∧ r.2.n = row.attempts + 1)) = false := by
    rw [List.any_eq_false]
    intro r hr
    simpa using h7 r hr
  refine ⟨finish_session { db with
      sessions := updAll db.sessions (uid, key)
        (fun s => { s with attempts := row.attempts + 1 }),
      attempts := db.attempts ++ [((uid, key),
        ⟨row.attempts + 1, g.name, build_feedback_spotle_multiline g answer⟩)] }
    uid key, ?_, ?_⟩
  · have hadd : add_attempt db uid key g.name (build_feedback_spotle_multiline g answer) =
        Except.ok { db with
          sessions := updAll db.sessions (uid, key)
            (fun s => { s with attempts := row.attempts + 1 }),
          attempts := db.attempts ++ [((uid, key),
            ⟨row.attempts + 1, g.name, build_feedback_spotle_multiline g answer⟩)] } := by
      simp only [add_attempt, h2, hany, Bool.false_eq_true, if_false]
    simp only [handle_guess, h1, h2, h3, if_false, h4, hmax, hadd, h6, if_true, hten]
  · simp only [finish_session, get_session] at h2 ⊢
    simp only [alookup_updAll_self, h2, Option.map_some']

/-- A database whose focused session has used 9 of 10 attempts. -/
def demoNine : DBState := ⟨[((1, "k"), ⟨"aaa", 9, 0, "t"⟩)], [], [(1, "k")], []⟩

theorem final_attempt_win_precedence_witness :
    ∃ db2, handle_guess [cxA] demoNine 1 cxA =
        (db2, Reply.win MAX_ATTEMPTS (build_feedback_spotle_multiline cxA cxA)) ∧
      (get_session db2 1 "k").map SessionRow.finished = some 1 :=
  final_attempt_win_precedence [cxA] demoNine 1 "k" cxA ⟨"aaa", 9, 0, "t"⟩ cxA
    (by decide) (by decide) (by decide) (by decide) (by decide) rfl (by decide)
